import Mathlib

/-!
Shallow embedding of `Manual Object Measurement/main.py`, a single-file
Streamlit script that calibrates a camera frame against a known real-world
distance and measures point-to-point distances, appending results to a CSV
file.

The script is re-executed top to bottom on every UI interaction ("rerun").
We model one rerun as a pure function `runScript` from the per-rerun inputs
(which button was clicked, the canvas point list, the checkbox value, the
number input) and the session state to the new session state plus the list of
user-visible messages emitted.  A whole interaction sequence is `runTrace`.

Numeric modelling: Python floats are modelled as real numbers; `math.hypot`
is modelled as `Real.sqrt` of the sum of squares.  Python's `x // y` floor
division on ints is `Int.fdiv`.  Python f-string `f"{x:.2f}"` formatting is
modelled as rounding `100 * x` to the nearest integer (`round`) and rendering
that many hundredths; Python rounds exact .xx5 ties to even at the binary
float level whereas `round` rounds half up — no claim below depends on a tie.
The CSV file is modelled as the list of its rows (each row a list of cell
strings); a possibly-absent file is `Option` of that.
-/

/-- A pixel point `(int(obj["left"]), int(obj["top"]))` from the drawable
canvas, origin top-left. -/
structure Point where
  x : ℤ
  y : ℤ
deriving DecidableEq, Repr

/-- `math.hypot(pt2[0] - pt1[0], pt2[1] - pt1[1])` (main.py lines 95 and 114):
the Euclidean pixel distance between two points. -/
noncomputable def pixelDist (p1 p2 : Point) : ℝ :=
  Real.sqrt ((((p2.x - p1.x) ^ 2 + (p2.y - p1.y) ^ 2 : ℤ) : ℝ))

/-- `DEFAULT_RATIO = 15/273.03` (main.py line 12); source constant name
`DEFAULT_RATIO`. -/
noncomputable def defaultRatio : ℝ := 15 / 273.03

/-- `CSV` header row written at file creation (main.py line 19). -/
def headerRow : List String :=
  ["Product Number", "Width (cm)", "Height (cm)", "Distances (cm)"]

/-- Lines 16-19: `if not os.path.exists(CSV_FILENAME): ... writer.writerow(header)`.
`none` models an absent file; `some t` a file with rows `t`. -/
def initCSV : Option (List (List String)) → Option (List (List String))
  | none => some [headerRow]
  | some t => some t

/-- User-visible messages the script can emit (st.success / st.error /
st.warning calls that the claims reference). -/
inductive Msg where
  | calibOk
  | calibTooClose
  | calibTooMany
  | saved (n : ℕ)
  | saveWarn
deriving DecidableEq, Repr

/-- The Streamlit session state (main.py lines 22-24) together with the CSV
file contents (the persisted table the Measure & Save branch appends to). -/
structure SessionState where
  points : List Point
  measured_distances : List ℝ
  product_count : ℕ
  captured_image : Option Unit
  ratio : Option ℝ
  calibration_mode : Bool
  table : List (List String)

/-- Initial session state (main.py lines 22-24) with the CSV file freshly
created by `initCSV` (so holding just the header row). -/
def initState : SessionState :=
  { points := []
    measured_distances := []
    product_count := 0
    captured_image := none
    ratio := none
    calibration_mode := false
    table := [headerRow] }

/-- The per-rerun inputs: which buttons were clicked this rerun, the
checkbox value, the most recent video frame (if any), the canvas
`json_data` point list (`none` when `json_data` is falsy), and the
number-input value for the known calibration distance. -/
structure RunInput where
  startNew : Bool
  calibMode : Bool
  captureClicked : Bool
  frame : Option Unit
  canvasData : Option (List Point)
  known_cm : ℝ
  saveClicked : Bool

/-- Lines 37-41: the "Start New Product" button branch. -/
def startNewBranch (clicked : Bool) (s : SessionState) : SessionState :=
  if clicked then
    { s with points := []
             measured_distances := []
             product_count := s.product_count + 1
             captured_image := none }
  else s

/-- Line 44: the calibration-mode checkbox assignment. -/
def setCalibMode (b : Bool) (s : SessionState) : SessionState :=
  { s with calibration_mode := b }

/-- Lines 63-66: the "Capture Frame" button branch (stores the most recent
frame when one is available). -/
def captureBranch (clicked : Bool) (frame : Option Unit) (s : SessionState) :
    SessionState :=
  if clicked then
    match frame with
    | some f => { s with captured_image := some f }
    | none => s
  else s

/-- Lines 84-87: `if canvas_result.json_data: st.session_state.points = [...]`.
`none` models falsy `json_data`; otherwise the point list is overwritten
(possibly with an empty list). -/
def setPoints (canvasData : Option (List Point)) (s : SessionState) :
    SessionState :=
  match canvasData with
  | some ps => { s with points := ps }
  | none => s

/-- Lines 91-102: the calibration-mode branch.  With exactly two selected
points and a positive pixel distance the ratio `known_cm / pixel_dist` is
stored; with coincident points an error is shown and nothing changes; with
more than two points a warning is shown and nothing changes. -/
noncomputable def calibBranch (known_cm : ℝ) (s : SessionState) :
    SessionState × Option Msg :=
  match s.points with
  | [pt1, pt2] =>
      if 0 < pixelDist pt1 pt2 then
        ({ s with ratio := some (known_cm / pixelDist pt1 pt2) },
          some Msg.calibOk)
      else (s, some Msg.calibTooClose)
  | _ =>
      if 2 < s.points.length then (s, some Msg.calibTooMany) else (s, none)

/-- Line 118: `mid = ((pt1[0] + pt2[0]) // 2, (pt1[1] + pt2[1]) // 2)`
(Python `//` is floor division, `Int.fdiv`). -/
def midPt (p1 p2 : Point) : Point :=
  ⟨Int.fdiv (p1.x + p2.x) 2, Int.fdiv (p1.y + p2.y) 2⟩

/-- Lines 109-119: the measurement-mode drawing loop.  For each consecutive
pair of points, in input order, it produces the segment endpoints, the
real-world distance `pixel distance * ratio`, and the label midpoint. -/
noncomputable def annotate : List Point → ℝ → List (Point × Point × ℝ × Point)
  | p1 :: p2 :: rest, ratio =>
      (p1, p2, pixelDist p1 p2 * ratio, midPt p1 p2) ::
        annotate (p2 :: rest) ratio
  | _, _ => []

/-- The `distances` list accumulated by the loop of lines 109-116. -/
noncomputable def segDists (ps : List Point) (ratio : ℝ) : List ℝ :=
  (annotate ps ratio).map fun e => e.2.2.1

/-- Line 105: `ratio = st.session_state.ratio or DEFAULT_RATIO` — Python
`or` falls back when the left side is falsy (`None` or `0.0`). -/
noncomputable def effRatio : Option ℝ → ℝ
  | none => defaultRatio
  | some x => if x = 0 then defaultRatio else x

/-- Lines 103-129: the measurement-mode branch.  It computes the consecutive
pairwise distances with the effective ratio and, when the list is non-empty
(line 124 `if distances:`), stores it in `measured_distances`. -/
noncomputable def measureBranch (s : SessionState) : SessionState :=
  let distances := segDists s.points (effRatio s.ratio)
  if distances.isEmpty then s else { s with measured_distances := distances }

/-- Python `max` of a list of ints (line 137); total with an unreachable
default for the empty list, which the save guard rules out. -/
def pyMax : List ℤ → ℤ
  | [] => 0
  | x :: xs => xs.foldl max x

/-- Python `min` of a list of ints (lines 137-138). -/
def pyMin : List ℤ → ℤ
  | [] => 0
  | x :: xs => xs.foldl min x

/-- Lines 134-140: the axis-aligned bounding-extent computation
`(max x - min x) * ratio, (max y - min y) * ratio`. -/
noncomputable def extent (ps : List Point) (ratio : ℝ) : ℝ × ℝ :=
  (((pyMax (ps.map Point.x) - pyMin (ps.map Point.x) : ℤ) : ℝ) * ratio,
   ((pyMax (ps.map Point.y) - pyMin (ps.map Point.y) : ℤ) : ℝ) * ratio)

/-- Renders `n` hundredths the way Python formats the number `n / 100` with
`f"{x:.2f}"`: sign, integer part, dot, two-digit fraction. -/
def render2 (n : ℤ) : String :=
  (if n < 0 then "-" else "") ++ toString (n.natAbs / 100) ++ "." ++
    (if n.natAbs % 100 < 10 then "0" else "") ++ toString (n.natAbs % 100)

/-- Python `f"{x:.2f}"` on a real value: round `100 * x` to the nearest
integer and render the hundredths (ties differ from Python's float
half-to-even rounding; no verified input hits a tie). -/
noncomputable def fmt2 (x : ℝ) : String :=
  render2 (round (100 * x))

/-- Lines 132-156: the "Measure & Save" button body.  Guard (line 133):
`len(points) > 1 and st.session_state.ratio` (a `None` or `0.0` ratio is
falsy).  On success it appends one CSV row
`[product_count + 1, width, height, joined distances]` with 2-decimal
formatting and clears points, captured image and measured distances; on
failure it warns and changes nothing. -/
noncomputable def saveBranch (s : SessionState) : SessionState × Msg :=
  match s.ratio with
  | some r =>
      if 1 < s.points.length ∧ r ≠ 0 then
        ({ s with
            table := s.table ++
              [[toString (s.product_count + 1),
                fmt2 (extent s.points r).1,
                fmt2 (extent s.points r).2,
                String.intercalate ", " (s.measured_distances.map fmt2)]]
            points := []
            captured_image := none
            measured_distances := [] },
          Msg.saved (s.product_count + 1))
      else (s, Msg.saveWarn)
  | none => (s, Msg.saveWarn)

/-- Lines 69-129: the canvas block, run only when a frame has been captured:
overwrite the point list from the canvas, then run either the
calibration-mode branch or the measurement-mode branch. -/
noncomputable def canvasBlock (inp : RunInput) (s : SessionState) :
    SessionState × Option Msg :=
  match s.captured_image with
  | none => (s, none)
  | some _ =>
      let s' := setPoints inp.canvasData s
      if s'.calibration_mode then calibBranch inp.known_cm s'
      else (measureBranch s', none)

/-- Lines 132-156 as a rerun step: the save body runs only when the button
was clicked this rerun. -/
noncomputable def saveStep (clicked : Bool) (s : SessionState) :
    SessionState × Option Msg :=
  if clicked then
    ((saveBranch s).1, some (saveBranch s).2)
  else (s, none)

/-- One full rerun of the script, top to bottom in source order:
Start New Product (37), calibration-mode checkbox (44), Capture Frame (63),
canvas block with calibration / measurement branch (69-129),
Measure & Save (132). -/
noncomputable def runScript (inp : RunInput) (s0 : SessionState) :
    SessionState × List Msg :=
  let s1 := startNewBranch inp.startNew s0
  let s2 := setCalibMode inp.calibMode s1
  let s3 := captureBranch inp.captureClicked inp.frame s2
  let p4 := canvasBlock inp s3
  let p5 := saveStep inp.saveClicked p4.1
  (p5.1, p4.2.toList ++ p5.2.toList)

/-- A sequence of reruns starting from a session state, collecting all
emitted messages in order. -/
noncomputable def runTrace : List RunInput → SessionState → SessionState × List Msg
  | [], s => (s, [])
  | i :: is, s =>
      let p := runScript i s
      let q := runTrace is p.1
      (q.1, p.2 ++ q.2)

/-- The product indices carried by the success messages of the saves that
actually wrote a row, in emission order. -/
def savedIndices (ms : List Msg) : List ℕ :=
  ms.filterMap fun m =>
    match m with
    | Msg.saved n => some n
    | _ => none

/-! ## Helper lemmas about the embedded arithmetic -/

lemma pixelDist_nonneg (p1 p2 : Point) : 0 ≤ pixelDist p1 p2 :=
  Real.sqrt_nonneg _

lemma pixelDist_eval (p1 p2 : Point) (n : ℝ) (hn : 0 ≤ n)
    (h : (((p2.x - p1.x) ^ 2 + (p2.y - p1.y) ^ 2 : ℤ) : ℝ) = n ^ 2) :
    pixelDist p1 p2 = n := by
  rw [pixelDist, h, Real.sqrt_sq hn]

lemma pixelDist_self (p : Point) : pixelDist p p = 0 := by
  have := pixelDist_eval p p 0 le_rfl (by norm_num)
  simpa using this

lemma fmt2_eval (x : ℝ) (n : ℤ) (h : round (100 * x) = n) :
    fmt2 x = render2 n := by
  rw [fmt2, h]

/-! ## C1: successful calibration -/

/-- C1: for a session whose selected points are exactly two points at nonzero
Euclidean pixel distance, and any positive known length, the calibration
branch succeeds (emits the success message), returns the strictly positive
ratio `known / pixelDist`, and stores it as the session ratio. -/
theorem calibrate_pos_ratio (s : SessionState) (p1 p2 : Point) (known : ℝ)
    (hp : s.points = [p1, p2]) (hd : pixelDist p1 p2 ≠ 0) (hk : 0 < known) :
    calibBranch known s =
      ({ s with ratio := some (known / pixelDist p1 p2) }, some Msg.calibOk) ∧
    0 < known / pixelDist p1 p2 := by
  have hpos : 0 < pixelDist p1 p2 :=
    lt_of_le_of_ne (pixelDist_nonneg p1 p2) (Ne.symm hd)
  constructor
  · rw [calibBranch, hp]
    simp [hpos]
  · exact div_pos hk hpos

def calWitState : SessionState :=
  { points := [⟨0, 0⟩, ⟨3, 4⟩]
    measured_distances := []
    product_count := 0
    captured_image := some ()
    ratio := none
    calibration_mode := true
    table := [headerRow] }

/-- Witness for C1 at the concrete points (0,0), (3,4) (pixel distance 5)
and known length 15. -/
theorem calibrate_pos_ratio_witness :
    calibBranch 15 calWitState =
      ({ calWitState with
          ratio := some (15 / pixelDist ⟨0, 0⟩ ⟨3, 4⟩) }, some Msg.calibOk) ∧
    0 < (15 : ℝ) / pixelDist ⟨0, 0⟩ ⟨3, 4⟩ := by
  have h5 : pixelDist (⟨0, 0⟩ : Point) ⟨3, 4⟩ = 5 :=
    pixelDist_eval _ _ 5 (by norm_num) (by norm_num)
  exact calibrate_pos_ratio calWitState ⟨0, 0⟩ ⟨3, 4⟩ 15 rfl
    (by rw [h5]; norm_num) (by norm_num)

/-! ## C7: degenerate calibration -/

/-- C7: a calibration attempt on exactly two coincident points (zero pixel
distance) fails with the degenerate-calibration error message and leaves the
whole session state — in particular the stored ratio — unchanged. -/
theorem calibrate_degenerate (s : SessionState) (p : Point) (known : ℝ)
    (hp : s.points = [p, p]) :
    calibBranch known s = (s, some Msg.calibTooClose) := by
  rw [calibBranch, hp]
  simp [pixelDist_self p]

def degWitState : SessionState :=
  { points := [⟨5, 5⟩, ⟨5, 5⟩]
    measured_distances := []
    product_count := 0
    captured_image := some ()
    ratio := none
    calibration_mode := true
    table := [headerRow] }

/-- Witness for C7 at the concrete coincident points (5,5), (5,5). -/
theorem calibrate_degenerate_witness :
    calibBranch 15 degWitState = (degWitState, some Msg.calibTooClose) :=
  calibrate_degenerate degWitState ⟨5, 5⟩ 15 rfl

/-! ## C3: the annotation loop -/

lemma annotate_length : ∀ (ps : List Point) (r : ℝ),
    (annotate ps r).length = ps.length - 1
  | [], _ => rfl
  | [_], _ => rfl
  | _ :: q :: t, r => by
      have ih := annotate_length (q :: t) r
      simp only [annotate, List.length_cons, ih]
      omega

lemma annotate_get : ∀ (ps : List Point) (r : ℝ) (i : ℕ) (p q : Point),
    ps[i]? = some p → ps[i + 1]? = some q →
    (annotate ps r)[i]? = some (p, q, pixelDist p q * r, midPt p q)
  | [], _, i, _, _, h1, _ => by simp at h1
  | [_], _, i, _, _, h1, h2 => by
      rcases i with _ | j <;> simp at h1 h2
  | a :: b :: t, r, 0, p, q, h1, h2 => by
      simp only [List.getElem?_cons_zero, Option.some.injEq] at h1
      simp only [List.getElem?_cons_succ, List.getElem?_cons_zero,
        Option.some.injEq] at h2
      subst h1; subst h2
      simp [annotate]
  | a :: b :: t, r, i + 1, p, q, h1, h2 => by
      have ih := annotate_get (b :: t) r i p q (by simpa using h1)
        (by simpa using h2)
      simpa [annotate] using ih

/-- C3: the measurement-annotation loop on a point sequence of length n and
any ratio returns exactly `n - 1` segments (truncated subtraction, so
`max(n-1,0)`), in input order: the `i`-th segment joins points `i` and `i+1`,
its real distance is their Euclidean pixel distance times the ratio, and its
label midpoint is the floor-division midpoint; fewer than 2 points yield the
empty list rather than an error. -/
theorem annotate_segments (ps : List Point) (r : ℝ) :
    (annotate ps r).length = ps.length - 1 ∧
    (∀ (i : ℕ) (p q : Point), ps[i]? = some p → ps[i + 1]? = some q →
      (annotate ps r)[i]? = some (p, q, pixelDist p q * r, midPt p q)) ∧
    (ps.length < 2 → annotate ps r = []) := by
  refine ⟨annotate_length ps r, fun i p q h1 h2 => annotate_get ps r i p q h1 h2, ?_⟩
  intro hlt
  have := annotate_length ps r
  have hz : (annotate ps r).length = 0 := by omega
  exact List.length_eq_zero.mp hz

/-- Witness for C3 on the concrete points (0,0), (3,4), (3,0) with ratio 2:
two segments, first distance `5 * 2`, midpoint (1,2). -/
theorem annotate_segments_witness :
    (annotate [⟨0, 0⟩, ⟨3, 4⟩, ⟨3, 0⟩] (2 : ℝ)).length = 2 ∧
    (annotate [⟨0, 0⟩, ⟨3, 4⟩, ⟨3, 0⟩] (2 : ℝ))[0]? =
      some (⟨0, 0⟩, ⟨3, 4⟩, pixelDist ⟨0, 0⟩ ⟨3, 4⟩ * 2, ⟨1, 2⟩) ∧
    annotate [⟨7, 7⟩] (2 : ℝ) = [] := by
  have h := annotate_segments [⟨0, 0⟩, ⟨3, 4⟩, ⟨3, 0⟩] (2 : ℝ)
  have h1 := annotate_segments [(⟨7, 7⟩ : Point)] (2 : ℝ)
  refine ⟨h.1, ?_, h1.2.2 (by norm_num)⟩
  have := h.2.1 0 ⟨0, 0⟩ ⟨3, 4⟩ rfl rfl
  rw [this]
  have hm : midPt (⟨0, 0⟩ : Point) ⟨3, 4⟩ = ⟨1, 2⟩ := by
    simp [midPt]
  rw [hm]

/-! ## C4: the bounding extent -/

lemma foldl_max_spec : ∀ (l : List ℤ) (a : ℤ),
    a ≤ l.foldl max a ∧ (∀ b ∈ l, b ≤ l.foldl max a) ∧
      (l.foldl max a = a ∨ l.foldl max a ∈ l)
  | [], a => by simp
  | c :: t, a => by
      have ih := foldl_max_spec t (max a c)
      refine ⟨le_trans (le_max_left a c) ih.1, ?_, ?_⟩
      · intro b hb
        rcases List.mem_cons.mp hb with hb | hb
        · rw [hb]; exact le_trans (le_max_right a c) ih.1
        · exact ih.2.1 b hb
      · rcases ih.2.2 with h | h
        · rcases max_choice a c with hm | hm
          · left; rw [List.foldl_cons, h, hm]
          · right; rw [List.foldl_cons, h, hm]; exact List.mem_cons_self _ _
        · right; exact List.mem_cons_of_mem _ h

lemma foldl_min_spec : ∀ (l : List ℤ) (a : ℤ),
    l.foldl min a ≤ a ∧ (∀ b ∈ l, l.foldl min a ≤ b) ∧
      (l.foldl min a = a ∨ l.foldl min a ∈ l)
  | [], a => by simp
  | c :: t, a => by
      have ih := foldl_min_spec t (min a c)
      refine ⟨le_trans ih.1 (min_le_left a c), ?_, ?_⟩
      · intro b hb
        rcases List.mem_cons.mp hb with hb | hb
        · rw [hb]; exact le_trans ih.1 (min_le_right a c)
        · exact ih.2.1 b hb
      · rcases ih.2.2 with h | h
        · rcases min_choice a c with hm | hm
          · left; rw [List.foldl_cons, h, hm]
          · right; rw [List.foldl_cons, h, hm]; exact List.mem_cons_self _ _
        · right; exact List.mem_cons_of_mem _ h

lemma pyMax_spec (l : List ℤ) (h : l ≠ []) :
    pyMax l ∈ l ∧ ∀ b ∈ l, b ≤ pyMax l := by
  rcases l with _ | ⟨x, xs⟩
  · exact absurd rfl h
  · have hs := foldl_max_spec xs x
    constructor
    · rcases hs.2.2 with hx | hx
      · rw [pyMax, hx]; exact List.mem_cons_self _ _
      · exact List.mem_cons_of_mem _ hx
    · intro b hb
      rcases List.mem_cons.mp hb with hb | hb
      · exact hb ▸ hs.1
      · exact hs.2.1 b hb

lemma pyMin_spec (l : List ℤ) (h : l ≠ []) :
    pyMin l ∈ l ∧ ∀ b ∈ l, pyMin l ≤ b := by
  rcases l with _ | ⟨x, xs⟩
  · exact absurd rfl h
  · have hs := foldl_min_spec xs x
    constructor
    · rcases hs.2.2 with hx | hx
      · rw [pyMin, hx]; exact List.mem_cons_self _ _
      · exact List.mem_cons_of_mem _ hx
    · intro b hb
      rcases List.mem_cons.mp hb with hb | hb
      · exact hb ▸ hs.1
      · exact hs.2.1 b hb

/-- C4: for at least two points, the extent computation multiplies the x- and
y-spreads of the point set by the ratio: the subtracted values are genuinely
the maximum and minimum coordinates (members of the set bounding all others);
and on the concrete points {(0,0), (10,0), (0,20)} with ratio 1 the result is
width 10, height 20. -/
theorem extent_correct :
    (∀ (ps : List Point) (r : ℝ), 2 ≤ ps.length →
      pyMax (ps.map Point.x) ∈ ps.map Point.x ∧
      pyMin (ps.map Point.x) ∈ ps.map Point.x ∧
      pyMax (ps.map Point.y) ∈ ps.map Point.y ∧
      pyMin (ps.map Point.y) ∈ ps.map Point.y ∧
      (∀ a ∈ ps.map Point.x,
        pyMin (ps.map Point.x) ≤ a ∧ a ≤ pyMax (ps.map Point.x)) ∧
      (∀ b ∈ ps.map Point.y,
        pyMin (ps.map Point.y) ≤ b ∧ b ≤ pyMax (ps.map Point.y)) ∧
      extent ps r =
        (((pyMax (ps.map Point.x) - pyMin (ps.map Point.x) : ℤ) : ℝ) * r,
         ((pyMax (ps.map Point.y) - pyMin (ps.map Point.y) : ℤ) : ℝ) * r)) ∧
    extent [⟨0, 0⟩, ⟨10, 0⟩, ⟨0, 20⟩] (1 : ℝ) = (10, 20) := by
  constructor
  · intro ps r hlen
    have hne : ps ≠ [] := by
      intro h; rw [h] at hlen; simp at hlen
    have hx : ps.map Point.x ≠ [] := by simpa using hne
    have hy : ps.map Point.y ≠ [] := by simpa using hne
    have hmx := pyMax_spec _ hx
    have hnx := pyMin_spec _ hx
    have hmy := pyMax_spec _ hy
    have hny := pyMin_spec _ hy
    exact ⟨hmx.1, hnx.1, hmy.1, hny.1,
      fun a ha => ⟨hnx.2 a ha, hmx.2 a ha⟩,
      fun b hb => ⟨hny.2 b hb, hmy.2 b hb⟩, rfl⟩
  · have hx : pyMax [(0 : ℤ), 10, 0] = 10 := by decide
    have hnx : pyMin [(0 : ℤ), 10, 0] = 0 := by decide
    have hy : pyMax [(0 : ℤ), 0, 20] = 20 := by decide
    have hny : pyMin [(0 : ℤ), 0, 20] = 0 := by decide
    simp only [extent, List.map_cons, List.map_nil]
    rw [hx, hnx, hy, hny]
    norm_num

/-- Witness for C4 applying the universal part at the concrete points
{(0,0), (10,0), (0,20)} with ratio 1. -/
theorem extent_correct_witness :
    pyMax (([⟨0, 0⟩, ⟨10, 0⟩, ⟨0, 20⟩] : List Point).map Point.x) ∈
      ([⟨0, 0⟩, ⟨10, 0⟩, ⟨0, 20⟩] : List Point).map Point.x ∧
    extent [⟨0, 0⟩, ⟨10, 0⟩, ⟨0, 20⟩] (1 : ℝ) = (10, 20) :=
  ⟨(extent_correct.1 [⟨0, 0⟩, ⟨10, 0⟩, ⟨0, 20⟩] 1 (by norm_num)).1,
   extent_correct.2⟩

/-! ## C6: save attempted with too few points or no ratio -/

lemma saveBranch_warn (s : SessionState)
    (h : s.points.length < 2 ∨ s.ratio = none) :
    saveBranch s = (s, Msg.saveWarn) := by
  rcases hr : s.ratio with _ | r
  · rw [saveBranch, hr]
  · rcases h with h | h
    · have hguard : ¬ (1 < s.points.length ∧ r ≠ 0) := by
        intro hc
        omega
      rw [saveBranch, hr]
      simp [hguard]
    · rw [h] at hr
      cases hr

/-- C6: when Measure & Save is triggered with fewer than 2 points, or with
the session ratio never set, the branch emits the user-visible warning,
writes no record (the result state is exactly the input state, so the table,
points, captured image, distances, ratio and product counter are all
unchanged). -/
theorem save_insufficient_warn (s : SessionState)
    (h : s.points.length < 2 ∨ s.ratio = none) :
    saveBranch s = (s, Msg.saveWarn) :=
  saveBranch_warn s h

noncomputable def fewPointsState : SessionState :=
  { points := [⟨4, 4⟩]
    measured_distances := []
    product_count := 3
    captured_image := some ()
    ratio := some 2
    calibration_mode := false
    table := [headerRow] }

/-- Witness for C6 at a concrete state with a single point. -/
theorem save_insufficient_warn_witness :
    saveBranch fewPointsState = (fewPointsState, Msg.saveWarn) :=
  save_insufficient_warn fewPointsState (Or.inl (by norm_num [fewPointsState]))

/-! ## C9: Start New Product clicked twice -/

/-- The rerun input corresponding to clicking "Start New Product" and doing
nothing else. -/
def startInput : RunInput :=
  { startNew := true
    calibMode := false
    captureClicked := false
    frame := none
    canvasData := none
    known_cm := 15
    saveClicked := false }

/-- C9: from any session state, two consecutive "Start New Product" clicks
clear the same fields to the same values both times (points and measured
distances emptied, captured image cleared) and each click increments the
product counter by exactly 1, so the two clicks together increment it by
exactly 2; the ratio and the persisted table are untouched. -/
theorem start_new_product_idempotent (s : SessionState) :
    ((runScript startInput s).1.points = [] ∧
     (runScript startInput s).1.measured_distances = [] ∧
     (runScript startInput s).1.captured_image = none ∧
     (runScript startInput s).1.product_count = s.product_count + 1 ∧
     (runScript startInput s).1.ratio = s.ratio ∧
     (runScript startInput s).1.table = s.table) ∧
    ((runScript startInput (runScript startInput s).1).1.points = [] ∧
     (runScript startInput (runScript startInput s).1).1.measured_distances = [] ∧
     (runScript startInput (runScript startInput s).1).1.captured_image = none ∧
     (runScript startInput (runScript startInput s).1).1.product_count =
       s.product_count + 2 ∧
     (runScript startInput (runScript startInput s).1).1.ratio = s.ratio ∧
     (runScript startInput (runScript startInput s).1).1.table = s.table) := by
  have hone : ∀ t : SessionState, (runScript startInput t).1 =
      { t with points := []
               measured_distances := []
               product_count := t.product_count + 1
               captured_image := none
               calibration_mode := false } := by
    intro t
    simp [runScript, startInput, startNewBranch, setCalibMode, captureBranch,
      canvasBlock, saveStep]
  rw [hone, hone]
  simp [Nat.add_assoc]

/-! ## Frame lemmas: which branch touches which field -/

lemma startNewBranch_table (b : Bool) (s : SessionState) :
    (startNewBranch b s).table = s.table := by
  rw [startNewBranch]; split <;> rfl

lemma setCalibMode_table (b : Bool) (s : SessionState) :
    (setCalibMode b s).table = s.table := rfl

lemma captureBranch_table (b : Bool) (f : Option Unit) (s : SessionState) :
    (captureBranch b f s).table = s.table := by
  unfold captureBranch; split
  · cases f <;> rfl
  · rfl

lemma setPoints_table (c : Option (List Point)) (s : SessionState) :
    (setPoints c s).table = s.table := by
  unfold setPoints; cases c <;> rfl

lemma calibBranch_table (k : ℝ) (s : SessionState) :
    (calibBranch k s).1.table = s.table := by
  rw [calibBranch]
  rcases s.points with _ | ⟨a, _ | ⟨b, _ | ⟨c, l⟩⟩⟩ <;> dsimp <;> split <;> rfl

lemma measureBranch_table (s : SessionState) :
    (measureBranch s).table = s.table := by
  rw [measureBranch]; split <;> rfl

lemma canvasBlock_table (inp : RunInput) (s : SessionState) :
    (canvasBlock inp s).1.table = s.table := by
  rw [canvasBlock]
  rcases s.captured_image with _ | f
  · rfl
  · dsimp
    split
    · rw [calibBranch_table, setPoints_table]
    · rw [measureBranch_table, setPoints_table]

lemma saveBranch_table (s : SessionState) :
    (saveBranch s).1.table = s.table ∨
    ∃ row, (saveBranch s).1.table = s.table ++ [row] := by
  rw [saveBranch]
  rcases s.ratio with _ | r
  · exact Or.inl rfl
  · dsimp
    split
    · exact Or.inr ⟨_, rfl⟩
    · exact Or.inl rfl

lemma startNewBranch_count (b : Bool) (s : SessionState) :
    (startNewBranch b s).product_count =
      s.product_count + (if b then 1 else 0) := by
  rw [startNewBranch]; split <;> simp_all

lemma setCalibMode_count (b : Bool) (s : SessionState) :
    (setCalibMode b s).product_count = s.product_count := rfl

lemma captureBranch_count (b : Bool) (f : Option Unit) (s : SessionState) :
    (captureBranch b f s).product_count = s.product_count := by
  unfold captureBranch; split
  · cases f <;> rfl
  · rfl

lemma setPoints_count (c : Option (List Point)) (s : SessionState) :
    (setPoints c s).product_count = s.product_count := by
  unfold setPoints; cases c <;> rfl

lemma calibBranch_count (k : ℝ) (s : SessionState) :
    (calibBranch k s).1.product_count = s.product_count := by
  rw [calibBranch]
  rcases s.points with _ | ⟨a, _ | ⟨b, _ | ⟨c, l⟩⟩⟩ <;> dsimp <;> split <;> rfl

lemma measureBranch_count (s : SessionState) :
    (measureBranch s).product_count = s.product_count := by
  rw [measureBranch]; split <;> rfl

lemma canvasBlock_count (inp : RunInput) (s : SessionState) :
    (canvasBlock inp s).1.product_count = s.product_count := by
  rw [canvasBlock]
  rcases s.captured_image with _ | f
  · rfl
  · dsimp
    split
    · rw [calibBranch_count, setPoints_count]
    · rw [measureBranch_count, setPoints_count]

lemma saveBranch_count (s : SessionState) :
    (saveBranch s).1.product_count = s.product_count := by
  rw [saveBranch]
  rcases s.ratio with _ | r
  · rfl
  · dsimp
    split <;> rfl

lemma saveStep_count (b : Bool) (s : SessionState) :
    (saveStep b s).1.product_count = s.product_count := by
  rw [saveStep]; split
  · exact saveBranch_count s
  · rfl

lemma saveStep_table (b : Bool) (s : SessionState) :
    (saveStep b s).1.table = s.table ∨
    ∃ row, (saveStep b s).1.table = s.table ++ [row] := by
  rw [saveStep]; split
  · exact saveBranch_table s
  · exact Or.inl rfl

lemma runScript_count (inp : RunInput) (s : SessionState) :
    (runScript inp s).1.product_count =
      s.product_count + (if inp.startNew then 1 else 0) := by
  rw [runScript]
  dsimp
  rw [saveStep_count, canvasBlock_count, captureBranch_count,
    setCalibMode_count, startNewBranch_count]

lemma runScript_count_mono (inp : RunInput) (s : SessionState) :
    s.product_count ≤ (runScript inp s).1.product_count := by
  rw [runScript_count]
  split <;> omega

lemma runScript_table (inp : RunInput) (s : SessionState) :
    (runScript inp s).1.table = s.table ∨
    ∃ row, (runScript inp s).1.table = s.table ++ [row] := by
  rw [runScript]
  dsimp
  have h3 : (captureBranch inp.captureClicked inp.frame
      (setCalibMode inp.calibMode (startNewBranch inp.startNew s))).table =
      s.table := by
    rw [captureBranch_table, setCalibMode_table, startNewBranch_table]
  have h4 := canvasBlock_table inp (captureBranch inp.captureClicked inp.frame
    (setCalibMode inp.calibMode (startNewBranch inp.startNew s)))
  rcases saveStep_table inp.saveClicked (canvasBlock inp
      (captureBranch inp.captureClicked inp.frame
        (setCalibMode inp.calibMode (startNewBranch inp.startNew s)))).1 with
    h5 | ⟨row, h5⟩
  · left; rw [h5, h4, h3]
  · right; exact ⟨row, by rw [h5, h4, h3]⟩

/-! ## C2: the fallback ratio -/

/-- A reachable pre-save state: two points selected and rendered in
measurement mode (so the distances were computed with the fallback ratio),
but no calibration ever performed (`ratio = none`). -/
noncomputable def noCalibState : SessionState :=
  { points := [⟨0, 0⟩, ⟨100, 0⟩]
    measured_distances := [(100 : ℝ) * defaultRatio]
    product_count := 0
    captured_image := some ()
    ratio := none
    calibration_mode := false
    table := [headerRow] }

/-- Counterexample to C2 as stated: in a session whose ratio was never set,
the Measure & Save record-writing path does NOT use the fallback constant
15/273.03 as the ratio — even with two points selected it writes no record
at all (the table is unchanged) and emits the warning instead. -/
theorem save_no_fallback_counterexample :
    2 ≤ noCalibState.points.length ∧
    noCalibState.ratio = none ∧
    (saveBranch noCalibState).1.table = noCalibState.table ∧
    (saveBranch noCalibState).2 = Msg.saveWarn := by
  refine ⟨by norm_num [noCalibState], rfl, ?_, ?_⟩ <;> rw [saveBranch] <;> rfl

/-- C2 amended: only the measurement-mode distance rendering falls back to
the fixed constant 15/273.03 when the session ratio was never set; the
Measure & Save path performs no fallback — with the ratio never set it
emits a warning and writes no record, leaving the state unchanged. -/
theorem ratio_fallback_amended (s : SessionState) (h : s.ratio = none) :
    effRatio s.ratio = 15 / 273.03 ∧
    (2 ≤ s.points.length →
      (measureBranch s).measured_distances = segDists s.points (15 / 273.03)) ∧
    saveBranch s = (s, Msg.saveWarn) := by
  have hdef : effRatio s.ratio = 15 / 273.03 := by rw [h]; rfl
  refine ⟨hdef, ?_, saveBranch_warn s (Or.inr h)⟩
  intro hlen
  have hne : ¬ (segDists s.points (effRatio s.ratio)).isEmpty := by
    have hl : (segDists s.points (effRatio s.ratio)).length =
        s.points.length - 1 := by
      rw [segDists, List.length_map, annotate_length]
    rw [List.isEmpty_iff_length_eq_zero, hl]
    omega
  rw [measureBranch]
  simp only [hne, if_neg, Bool.false_eq_true, not_false_eq_true]
  rw [← hdef]

/-- Witness for the amended C2 at the concrete never-calibrated state. -/
theorem ratio_fallback_amended_witness :
    effRatio noCalibState.ratio = 15 / 273.03 ∧
    (measureBranch noCalibState).measured_distances =
      segDists noCalibState.points (15 / 273.03) ∧
    saveBranch noCalibState = (noCalibState, Msg.saveWarn) := by
  have h := ratio_fallback_amended noCalibState rfl
  exact ⟨h.1, h.2.1 (by norm_num [noCalibState]), h.2.2⟩

/-! ## C8: CSV initialization, append-only writes, field formatting -/

/-- C8: the header row is written exactly once, at creation when the file
does not exist, and never on subsequent runs; any single rerun either leaves
the persisted table unchanged or appends exactly one row at the end (prior
rows are never rewritten or reordered); and a successful Measure & Save
appends exactly the row whose width and height cells are 2-decimal renderings
and whose distance cell is the comma-and-space-joined 2-decimal rendering of
the stored distance list. -/
theorem csv_append_only :
    initCSV none = some [headerRow] ∧
    (∀ t, initCSV (some t) = some t) ∧
    (∀ (inp : RunInput) (s : SessionState),
      (runScript inp s).1.table = s.table ∨
      ∃ row, (runScript inp s).1.table = s.table ++ [row]) ∧
    (∀ (s : SessionState) (r : ℝ), s.ratio = some r → 1 < s.points.length →
      r ≠ 0 →
      (saveBranch s).1.table = s.table ++
        [[toString (s.product_count + 1),
          fmt2 (extent s.points r).1, fmt2 (extent s.points r).2,
          String.intercalate ", " (s.measured_distances.map fmt2)]] ∧
      (saveBranch s).2 = Msg.saved (s.product_count + 1)) := by
  refine ⟨rfl, fun t => rfl, runScript_table, ?_⟩
  intro s r hr hlen hr0
  rw [saveBranch, hr]
  dsimp
  rw [if_pos ⟨hlen, hr0⟩]
  exact ⟨rfl, rfl⟩

noncomputable def saveWitState : SessionState :=
  { points := [⟨0, 0⟩, ⟨3, 4⟩]
    measured_distances := [(5 : ℝ) * 2]
    product_count := 0
    captured_image := some ()
    ratio := some 2
    calibration_mode := false
    table := [headerRow] }

/-- Witness for C8 at a concrete calibrated two-point state. -/
theorem csv_append_only_witness :
    (saveBranch saveWitState).1.table = saveWitState.table ++
      [[toString (saveWitState.product_count + 1),
        fmt2 (extent saveWitState.points 2).1,
        fmt2 (extent saveWitState.points 2).2,
        String.intercalate ", " (saveWitState.measured_distances.map fmt2)]] ∧
    (saveBranch saveWitState).2 = Msg.saved (saveWitState.product_count + 1) :=
  csv_append_only.2.2.2 saveWitState 2 rfl (by norm_num [saveWitState])
    (by norm_num)

/-! ## C5: product indices across saves -/

lemma savedIndices_append (l1 l2 : List Msg) :
    savedIndices (l1 ++ l2) = savedIndices l1 ++ savedIndices l2 :=
  List.filterMap_append l1 l2 _

lemma calibBranch_no_saved (k : ℝ) (s : SessionState) :
    savedIndices (calibBranch k s).2.toList = [] := by
  rw [calibBranch]
  rcases s.points with _ | ⟨a, _ | ⟨b, _ | ⟨c, l⟩⟩⟩ <;> dsimp <;>
    (try split) <;> rfl

lemma canvasBlock_no_saved (inp : RunInput) (s : SessionState) :
    savedIndices (canvasBlock inp s).2.toList = [] := by
  rw [canvasBlock]
  rcases s.captured_image with _ | f
  · rfl
  · dsimp
    split
    · exact calibBranch_no_saved _ _
    · rfl

lemma saveStep_saved (b : Bool) (s : SessionState) :
    savedIndices (saveStep b s).2.toList = [] ∨
    (savedIndices (saveStep b s).2.toList = [s.product_count + 1] ∧
      (saveStep b s).1.product_count = s.product_count) := by
  rw [saveStep]
  split
  · rw [saveBranch]
    rcases s.ratio with _ | r
    · exact Or.inl rfl
    · dsimp
      split
      · exact Or.inr ⟨rfl, rfl⟩
      · exact Or.inl rfl
  · exact Or.inl rfl

lemma runScript_saved (inp : RunInput) (s : SessionState) :
    savedIndices (runScript inp s).2 = [] ∨
    savedIndices (runScript inp s).2 =
      [(runScript inp s).1.product_count + 1] := by
  rw [runScript]
  dsimp
  rw [savedIndices_append, canvasBlock_no_saved, List.nil_append]
  rcases saveStep_saved inp.saveClicked (canvasBlock inp
      (captureBranch inp.captureClicked inp.frame
        (setCalibMode inp.calibMode (startNewBranch inp.startNew s)))).1 with
    h | ⟨h1, h2⟩
  · exact Or.inl h
  · right
    rw [h1, h2]

lemma runTrace_fst : ∀ (es : List RunInput) (i : RunInput) (s : SessionState),
    (runTrace (i :: es) s).1 = (runTrace es (runScript i s).1).1 := by
  intro es i s
  rfl

lemma runTrace_snd : ∀ (es : List RunInput) (i : RunInput) (s : SessionState),
    (runTrace (i :: es) s).2 =
      (runScript i s).2 ++ (runTrace es (runScript i s).1).2 := by
  intro es i s
  rfl

lemma runTrace_count_mono : ∀ (es : List RunInput) (s : SessionState),
    s.product_count ≤ (runTrace es s).1.product_count
  | [], _ => le_rfl
  | i :: is, s => by
      rw [runTrace_fst]
      exact le_trans (runScript_count_mono i s)
        (runTrace_count_mono is (runScript i s).1)

lemma runTrace_saved_bound : ∀ (es : List RunInput) (s : SessionState),
    List.Chain' (fun m n => m ≤ n) (savedIndices (runTrace es s).2) ∧
    ∀ n ∈ savedIndices (runTrace es s).2, s.product_count + 1 ≤ n
  | [], s => by
      constructor
      · exact List.chain'_nil
      · intro n hn
        simp [runTrace, savedIndices] at hn
  | i :: is, s => by
      have ih := runTrace_saved_bound is (runScript i s).1
      have hmono := runScript_count_mono i s
      rw [runTrace_snd, savedIndices_append]
      rcases runScript_saved i s with h | h
      · rw [h, List.nil_append]
        refine ⟨ih.1, fun n hn => ?_⟩
        have := ih.2 n hn
        omega
      · rw [h, List.singleton_append]
        constructor
        · rw [List.chain'_cons']
          refine ⟨fun y hy => ?_, ih.1⟩
          have hmem := List.mem_of_mem_head? hy
          have := ih.2 y hmem
          omega
        · intro n hn
          rcases List.mem_cons.mp hn with hn | hn
          · omega
          · have := ih.2 n hn
            omega

/-- C5 amended: along every interaction sequence from the initial session,
the product indices written by successful saves are all positive and
non-decreasing in save order; they are not in general strictly increasing,
because the counter only advances on "Start New Product", so two successful
saves with no intervening "Start New Product" write the same index. -/
theorem product_index_monotone (es : List RunInput) :
    List.Chain' (fun m n => m ≤ n) (savedIndices (runTrace es initState).2) ∧
    0 ∉ savedIndices (runTrace es initState).2 := by
  have h := runTrace_saved_bound es initState
  refine ⟨h.1, fun hc => ?_⟩
  have h0 := h.2 0 hc
  simp [initState] at h0

lemma pixelDist_100 : pixelDist ⟨0, 0⟩ ⟨100, 0⟩ = 100 :=
  pixelDist_eval _ _ 100 (by norm_num) (by norm_num)

/-- Rerun input: capture a frame, select the two calibration points
(0,0), (100,0) on the canvas, calibrate with known length 15. -/
noncomputable def ceCalib : RunInput :=
  { startNew := false
    calibMode := true
    captureClicked := true
    frame := some ()
    canvasData := some [⟨0, 0⟩, ⟨100, 0⟩]
    known_cm := 15
    saveClicked := false }

/-- Rerun input: capture a frame, select the same two points in measurement
mode, and click Measure & Save — with no "Start New Product" click. -/
noncomputable def ceSave : RunInput :=
  { startNew := false
    calibMode := false
    captureClicked := true
    frame := some ()
    canvasData := some [⟨0, 0⟩, ⟨100, 0⟩]
    known_cm := 15
    saveClicked := true }

/-- The session state reached after the calibration rerun `ceCalib`. -/
noncomputable def ceS1 : SessionState :=
  { points := [⟨0, 0⟩, ⟨100, 0⟩]
    measured_distances := []
    product_count := 0
    captured_image := some ()
    ratio := some (15 / 100)
    calibration_mode := true
    table := [headerRow] }

lemma ce_run1 : runScript ceCalib initState = (ceS1, [Msg.calibOk]) := by
  rw [runScript]
  norm_num [ceCalib, startNewBranch, setCalibMode, captureBranch, canvasBlock,
    setPoints, calibBranch, saveStep, initState, ceS1, pixelDist_100]

lemma ce_save_run (t : SessionState) (hr : t.ratio = some (15 / 100)) :
    (runScript ceSave t).2 = [Msg.saved (t.product_count + 1)] ∧
    (runScript ceSave t).1.ratio = some (15 / 100) ∧
    (runScript ceSave t).1.product_count = t.product_count := by
  rw [runScript]
  norm_num [ceSave, startNewBranch, setCalibMode, captureBranch, canvasBlock,
    setPoints, measureBranch, effRatio, segDists, annotate, saveBranch,
    saveStep, hr, pixelDist_100]

/-- Counterexample to C5 as stated: after calibrating once, two consecutive
successful Measure & Save operations with no intervening "Start New Product"
both write product index 1 — the second index is not strictly greater than
the first, so the written indices are not strictly monotonically
increasing. -/
theorem product_index_not_strict_counterexample :
    savedIndices (runTrace [ceCalib, ceSave, ceSave] initState).2 = [1, 1] ∧
    ¬ List.Chain' (fun m n => m < n)
        (savedIndices (runTrace [ceCalib, ceSave, ceSave] initState).2) := by
  have h2 := ce_save_run ceS1 rfl
  have h3 := ce_save_run (runScript ceSave ceS1).1 h2.2.1
  have hidx : savedIndices (runTrace [ceCalib, ceSave, ceSave] initState).2 =
      [1, 1] := by
    rw [runTrace_snd, runTrace_snd, runTrace_snd]
    simp only [ce_run1, h2.1, h2.2.2, h3.1]
    simp [savedIndices, runTrace, ceS1]
  refine ⟨hidx, ?_⟩
  rw [hidx]
  simp [List.chain'_cons]

/-! ## C10: the saved distances are the stale rendered ones -/

/-- Rerun input: capture a frame and select the two points (0,0), (100,0) in
measurement mode, with no calibration performed yet. -/
noncomputable def stMeasure : RunInput :=
  { startNew := false
    calibMode := false
    captureClicked := true
    frame := some ()
    canvasData := some [⟨0, 0⟩, ⟨100, 0⟩]
    known_cm := 15
    saveClicked := false }

/-- Rerun input: with the same two points, switch to calibration mode
(known length 15) and click Measure & Save in the same rerun. -/
noncomputable def stSaveCal : RunInput :=
  { startNew := false
    calibMode := true
    captureClicked := false
    frame := none
    canvasData := some [⟨0, 0⟩, ⟨100, 0⟩]
    known_cm := 15
    saveClicked := true }

/-- State after `stMeasure`: the distances were rendered and stored with the
fallback ratio (the session ratio is still unset). -/
noncomputable def stS1 : SessionState :=
  { points := [⟨0, 0⟩, ⟨100, 0⟩]
    measured_distances := [(100 : ℝ) * defaultRatio]
    product_count := 0
    captured_image := some ()
    ratio := none
    calibration_mode := false
    table := [headerRow] }

/-- State reached inside the `stSaveCal` rerun after the calibration branch,
just before the save body runs: the ratio is now 15/100 = 0.15 but
`measured_distances` still holds the fallback-rendered value. -/
noncomputable def stA : SessionState :=
  { points := [⟨0, 0⟩, ⟨100, 0⟩]
    measured_distances := [(100 : ℝ) * defaultRatio]
    product_count := 0
    captured_image := some ()
    ratio := some (15 / 100)
    calibration_mode := true
    table := [headerRow] }

lemma st_run1 : runScript stMeasure initState = (stS1, []) := by
  rw [runScript]
  norm_num [stMeasure, startNewBranch, setCalibMode, captureBranch,
    canvasBlock, setPoints, measureBranch, effRatio, segDists, annotate,
    saveStep, initState, stS1, pixelDist_100]

lemma st_run2 : (runScript stSaveCal stS1).1 = (saveBranch stA).1 := by
  rw [runScript]
  norm_num [stSaveCal, startNewBranch, setCalibMode, captureBranch,
    canvasBlock, setPoints, calibBranch, saveStep, stS1, stA, pixelDist_100]

lemma st_save_result :
    (saveBranch stA).1.table = [headerRow, ["1", "15.00", "0.00", "5.49"]] ∧
    (saveBranch stA).1.ratio = some (15 / 100) := by
  have hg : 1 < stA.points.length ∧ ((15 : ℝ) / 100) ≠ 0 :=
    ⟨by norm_num [stA], by norm_num⟩
  have hwid : (extent [(⟨0, 0⟩ : Point), ⟨100, 0⟩] ((15 : ℝ) / 100)).1 = 15 := by
    have hmx : pyMax [(0 : ℤ), 100] = 100 := by decide
    have hmn : pyMin [(0 : ℤ), 100] = 0 := by decide
    simp only [extent, List.map_cons, List.map_nil]
    norm_num [hmx, hmn]
  have hhei : (extent [(⟨0, 0⟩ : Point), ⟨100, 0⟩] ((15 : ℝ) / 100)).2 = 0 := by
    have hmx : pyMax [(0 : ℤ), 0] = 0 := by decide
    have hmn : pyMin [(0 : ℤ), 0] = 0 := by decide
    simp only [extent, List.map_cons, List.map_nil]
    norm_num [hmx, hmn]
  have h15 : fmt2 (15 : ℝ) = "15.00" := by
    rw [fmt2_eval 15 1500 (by rw [round_eq]; norm_num)]
    rfl
  have h0 : fmt2 (0 : ℝ) = "0.00" := by
    rw [fmt2_eval 0 0 (by rw [round_eq]; norm_num)]
    rfl
  have h49 : fmt2 ((100 : ℝ) * defaultRatio) = "5.49" := by
    rw [fmt2_eval _ 549 (by rw [round_eq]; norm_num [defaultRatio])]
    rfl
  rw [saveBranch]
  rw [show stA.ratio = some ((15 : ℝ) / 100) from rfl]
  dsimp only
  rw [if_pos hg]
  dsimp only
  constructor
  · show stA.table ++ _ = _
    simp only [stA, List.map_cons, List.map_nil]
    rw [hwid, hhei, h15, h0, h49]
    rfl
  · rfl

/-- C10: the distances field saved by Measure & Save is the stored
`measured_distances` list from the last measurement-mode render, not
recomputed at save time: in the reachable session in which the two points
(0,0), (100,0) are first rendered with the fallback ratio and the operator
then calibrates to ratio 15/100 = 0.15 and saves in the same rerun, the
written row's distance cell is "5.49" (the stale fallback-ratio value),
while the pairwise pixel distance times the session ratio used for the saved
width and height renders as "15.00" — the two differ. -/
theorem saved_distances_stale :
    (runTrace [stMeasure, stSaveCal] initState).1.table =
      [headerRow, ["1", "15.00", "0.00", "5.49"]] ∧
    (runTrace [stMeasure, stSaveCal] initState).1.ratio = some (15 / 100) ∧
    fmt2 (pixelDist ⟨0, 0⟩ ⟨100, 0⟩ * (15 / 100)) = "15.00" ∧
    ("5.49" : String) ≠ "15.00" := by
  have hfinal : (runTrace [stMeasure, stSaveCal] initState).1 =
      (saveBranch stA).1 := by
    rw [runTrace_fst, runTrace_fst]
    simp only [st_run1]
    exact st_run2
  rw [hfinal]
  refine ⟨st_save_result.1, st_save_result.2, ?_, by decide⟩
  rw [pixelDist_100, show (100 : ℝ) * (15 / 100) = 15 by norm_num]
  rw [fmt2_eval 15 1500 (by rw [round_eq]; norm_num)]
  rfl
